import Mathlib

/-!
Verification development for parkerbot (src/main.py): a Matrix bot that
extracts YouTube links from chat messages, deduplicates them in a SQLite
store, classifies them via the YouTube API, and mirrors music links into
weekly playlists.

The shallow embedding below translates the relevant parts of src/main.py
into Lean.  SQLite tables become lists of rows kept in insertion (rowid)
order; the remote YouTube API and the classification oracle become an
explicit `Env` of response functions; remote calls and local store
operations performed by the code are logged into explicit traces so that
"at most one remote append" style properties can be stated.  Exceptions
(`googleapiclient.errors.HttpError`, `sqlite3.IntegrityError`) become
`Option`/flag values threaded through the state.
-/

namespace Parkerbot

/-! ## Data model (src/main.py, define_tables, lines 51-77) -/

/-- Row of the `messages` table: `id INTEGER PRIMARY KEY AUTOINCREMENT`,
`sender TEXT`, `message TEXT`, `timestamp DATETIME`, with
`UNIQUE (sender, message, timestamp)`.  Timestamps are Matrix server
timestamps in milliseconds since the epoch, hence `Nat`. -/
structure MsgRow where
  id : Nat
  sender : String
  message : String
  timestamp : Nat
deriving DecidableEq

/-- Row of the `playlists` table: `title TEXT`, `playlist_id TEXT UNIQUE`,
`creation_date DATE`.  The source derives the title as
`f"{YOUTUBE_PLAYLIST_TITLE} {monday_date.strftime('%Y-%m-%d')}"`; since the
configured prefix is constant and `%Y-%m-%d` formatting is injective on
dates, we model the title by the Monday day number itself (days since
1970-01-01, as `Int`). -/
structure PlaylistRow where
  title : Int
  playlist_id : String
  creation_date : Int
deriving DecidableEq

/-- Row of the `playlist_tracks` table: `playlist_id`, `message_id`,
`UNIQUE (playlist_id, message_id)`.  The code stores the *remote* YouTube
playlist id (a string) in the `playlist_id` column. -/
structure TrackRow where
  playlist_id : String
  message_id : Nat
deriving DecidableEq

/-- The SQLite database state: the three tables in insertion (rowid) order,
plus the next AUTOINCREMENT id for `messages` (SQLite starts at 1). -/
structure DB where
  messages : List MsgRow
  nextMsgId : Nat
  playlists : List PlaylistRow
  tracks : List TrackRow
deriving DecidableEq

/-- A freshly created database (after `define_tables`). -/
def emptyDB : DB := ⟨[], 1, [], []⟩

/-! ## Weekly bucket resolver (get_monday_date, lines 105-108)

`get_monday_date(timestamp)` computes
`date = datetime.fromtimestamp(timestamp / 1000, datetime.UTC)` and returns
`date - timedelta(days=date.weekday())`, i.e. the datetime moved back to
the Monday of its UTC week (`weekday()` has Monday = 0).  Only the date
part of the result is used downstream (via `strftime('%Y-%m-%d')`), so we
model the result as the day number of that Monday (days since 1970-01-01,
which was a Thursday, weekday 3).

Caveat about the source: line 11 binds the name `datetime` to the
*class* (`from datetime import datetime`), while `UTC` is a *module*
attribute (added to
the `datetime` module in Python 3.11 and never present on the class), so
the expression `datetime.UTC` at line 107 (and again at lines 197-199)
raises `AttributeError` on every execution, in every Python version.
The definitions below embed the conversion the function documents
("Get Monday of the week for the given timestamp.  Weeks start on
Monday."), i.e. the behaviour with the evidently intended UTC timezone
object; timestamps are nonnegative milliseconds, for which Python's
floor-style day arithmetic coincides with `Nat` division. -/

/-- Days since the epoch of the UTC calendar day containing a millisecond
timestamp. -/
def daysSinceEpoch (ts : Nat) : Nat := ts / 86400000

/-- Python `date.weekday()` for the UTC day of a millisecond timestamp:
Monday = 0.  1970-01-01 (day 0) was a Thursday (weekday 3). -/
def weekdayOf (ts : Nat) : Nat := (daysSinceEpoch ts + 3) % 7

/-- `get_monday_date`: day number of the Monday of the timestamp's UTC
week (`date - timedelta(days=date.weekday())`, date part). -/
def get_monday_date (ts : Nat) : Int :=
  (daysSinceEpoch ts : Int) - (weekdayOf ts : Int)

/-- Index of the Monday-to-Sunday span containing a timestamp: day numbers
are shifted by 3 so that Monday-aligned weeks become aligned blocks of 7.
This is the specification-side notion of "same calendar week". -/
def weekIndex (ts : Nat) : Nat := (daysSinceEpoch ts + 3) / 7

/-! ## Link extractor (message_callback, lines 185 and 194, 221)

The source scans the message body with
`re.findall(r"(https?://(?:www\.|music\.)?youtube\.com/(?!playlist\?list=)watch\?v=[\w-]+|https?://youtu\.be/[\w-]+)", body)`
and later derives the video id of each extracted link by
`link.split("v=")[-1].split("&")[0].split("/")[-1]`.

The matcher below is a direct character-level embedding of that regular
expression (Python `re` semantics: leftmost, non-overlapping matches;
alternation tries the long form first; `[\w-]+` is greedy).  `\w` is
modelled as ASCII alphanumeric or underscore, which is exact on all inputs
relevant here. -/

/-- Character class `[\w-]`. -/
def isWordDash (c : Char) : Bool := c.isAlphanum || c == '_' || c == '-'

/-- Match a literal at the head of the input and return the rest. -/
def stripLit : List Char → List Char → Option (List Char)
  | [], rest => some rest
  | _, [] => none
  | p :: ps, c :: cs => if p == c then stripLit ps cs else none

/-- Lookahead test: does the input start with the literal? -/
def isLitAt (lit s : List Char) : Bool := (stripLit lit s).isSome

/-- Match `https?://` at the head of the input (`s?` is greedy but the
following `://` makes the choice deterministic). -/
def stripScheme (s : List Char) : Option (List Char) :=
  match stripLit ("http").data s with
  | none => none
  | some rest =>
    match rest with
    | 's' :: rest2 => stripLit ("://").data rest2
    | _ => stripLit ("://").data rest

/-- Length of the greedy `[\w-]+` run at the head of the input. -/
def wordRun : List Char → Nat
  | [] => 0
  | c :: cs => if isWordDash c then wordRun cs + 1 else 0

/-- Try the long-form alternative
`https?://(?:www\.|music\.)?youtube\.com/(?!playlist\?list=)watch\?v=[\w-]+`
at the head of the input; returns the match length. -/
def matchLong (s : List Char) : Option Nat :=
  match stripScheme s with
  | none => none
  | some r1 =>
    let r2 :=
      match stripLit ("www.").data r1 with
      | some x => x
      | none =>
        match stripLit ("music.").data r1 with
        | some x => x
        | none => r1
    match stripLit ("youtube.com/").data r2 with
    | none => none
    | some r3 =>
      if isLitAt ("playlist?list=").data r3 then none
      else
        match stripLit ("watch?v=").data r3 with
        | none => none
        | some r4 =>
          let n := wordRun r4
          if n == 0 then none else some (s.length - (r4.length - n))

/-- Try the short-form alternative `https?://youtu\.be/[\w-]+` at the head
of the input; returns the match length. -/
def matchShort (s : List Char) : Option Nat :=
  match stripScheme s with
  | none => none
  | some r1 =>
    match stripLit ("youtu.be/").data r1 with
    | none => none
    | some r2 =>
      let n := wordRun r2
      if n == 0 then none else some (s.length - (r2.length - n))

/-- Try the whole alternation at the head of the input. -/
def tryMatch (s : List Char) : Option Nat :=
  match matchLong s with
  | some n => some n
  | none => matchShort s

/-- Scan for leftmost non-overlapping matches, as `re.findall` does.  The
fuel argument (instantiated to more than the input length) only serves to
make the recursion structural; every step consumes at least one character. -/
def scanLinks : Nat → List Char → List (List Char)
  | 0, _ => []
  | _, [] => []
  | fuel + 1, c :: cs =>
    match tryMatch (c :: cs) with
    | some n => (c :: cs).take n :: scanLinks fuel ((c :: cs).drop n)
    | none => scanLinks fuel cs

/-- `re.findall(youtube_link_pattern, body)` (line 194). -/
def findall (s : String) : List String :=
  (scanLinks (s.data.length + 1) s.data).map (fun cs => String.mk cs)

/-- Python `str.strip()` with no argument: remove whitespace from both
ends (modelled on ASCII whitespace, which is exact on all inputs relevant
here).  Used for `body = event.body.strip()` (line 188). -/
def pyStrip (s : String) : String :=
  String.mk (((s.data.dropWhile Char.isWhitespace).reverse.dropWhile
      Char.isWhitespace).reverse)

/-- Python `str.split` with a non-empty separator: scan left to right,
cutting at each non-overlapping occurrence of the separator.  `acc` holds
the current segment in reverse; the fuel (instantiated to more than the
input length) only makes the recursion structural. -/
def splitGo (sep : List Char) : Nat → List Char → List Char → List (List Char)
  | _, acc, [] => [acc.reverse]
  | 0, acc, s => [acc.reverse ++ s]
  | fuel + 1, acc, c :: cs =>
    match stripLit sep (c :: cs) with
    | some rest => acc.reverse :: splitGo sep fuel [] rest
    | none => splitGo sep fuel (c :: acc) cs

/-- Python `s.split(sep)` for a non-empty separator. -/
def pySplit (s sep : String) : List String :=
  (splitGo sep.data (s.data.length + 1) [] s.data).map (fun cs => String.mk cs)

/-- `link.split("v=")[-1].split("&")[0].split("/")[-1]` (line 221). -/
def video_id_of (link : String) : String :=
  ((pySplit ((pySplit ((pySplit link ("v=")).getLastD ("")) ("&")).headD (""))
      ("/")).getLastD (""))

/-! ## Remote environment

The YouTube client (`get_authenticated_service`) is modelled by response
functions; `none` / `false` model `googleapiclient.errors.HttpError`. -/

/-- Behaviour of the remote YouTube API and classification oracle. -/
structure Env where
  /-- `youtube.videos().list(id=v, part="snippet")`: the `categoryId` of
  the video (is_music, lines 175-180). -/
  categoryId : String → String
  /-- `youtube.playlists().insert(...)` (make_playlist, lines 111-128):
  `some id` on success, `none` models an uncaught `HttpError`. -/
  createApi : Int → Option String
  /-- `youtube.playlistItems().insert(...)` (add_video_to_playlist,
  lines 154-172): success of the physical attempt number `i` (0-based)
  of appending video `v` to playlist `p`. -/
  appendApi : String → String → Nat → Bool

/-- Remote API calls issued by the code, in order. -/
inductive RemoteCall where
  /-- A `playlists().insert` call for the week of the given Monday. -/
  | create (bucket : Int)
  /-- A `videos().list` classification call. -/
  | classify (video : String)
  /-- A logical `playlistItems().insert` operation (one
  `add_video_to_playlist` invocation, up to 3 physical attempts). -/
  | append (playlist video : String)
deriving DecidableEq

/-- Local durable-store operations issued by the link-processing loop. -/
inductive DbOp where
  /-- `INSERT INTO messages` (lines 224-228); `inserted = false` means the
  UNIQUE-constraint violation was caught and swallowed (lines 230-234). -/
  | recordMsg (sender link : String) (ts : Nat) (inserted : Bool)
  /-- `SELECT id FROM messages WHERE message = ?` (line 237). -/
  | findMsg (link : String)
  /-- `SELECT id FROM playlist_tracks WHERE message_id = ? AND
  playlist_id = ?` (lines 241-244). -/
  | memberCheck (playlist : String) (msgId : Nat) (found : Bool)
  /-- `INSERT INTO playlist_tracks` (lines 252-256). -/
  | insertTrack (playlist : String) (msgId : Nat)
deriving DecidableEq

/-- Messages sent back into the room (`client.room_send`). -/
inductive Reply where
  /-- The static `!parkerbot` introduction message (lines 201-209). -/
  | intro
  /-- The `!pow` reply (lines 211-218): addressed to the sender and
  carrying the current playlist link. -/
  | pow (sender : String) (playlist_link : String)
deriving DecidableEq

/-! ## Resolve-or-create (get_or_make_playlist, lines 131-151) -/

/-- Result of `get_or_make_playlist`: `handle = none` models the uncaught
`HttpError` of `make_playlist` propagating to the caller. -/
structure ResolveOut where
  handle : Option String
  db : DB
  calls : List RemoteCall
deriving DecidableEq

/-- `get_or_make_playlist(youtube, monday_date)`: look up the playlist by
derived title in the database; if absent, create it remotely and persist
the mapping before returning the remote id. -/
def get_or_make_playlist (env : Env) (db : DB) (monday : Int) : ResolveOut :=
  match db.playlists.find? (fun p => p.title == monday) with
  | some row => ⟨some row.playlist_id, db, []⟩
  | none =>
    match env.createApi monday with
    | none => ⟨none, db, [RemoteCall.create monday]⟩
    | some pid =>
      ⟨some pid,
       { db with playlists := db.playlists ++ [⟨monday, pid, monday⟩] },
       [RemoteCall.create monday]⟩

/-! ## Bounded retry (add_video_to_playlist, lines 154-172)

`for attempt in range(retry_count): try: insert; break
 except HttpError: if attempt < retry_count - 1: sleep(2**attempt) else: raise`

The embedding recurses on the number of remaining iterations
(`retry_count - attempt`).  It returns the loop outcome (`Except.ok n` =
returned normally with `n` physical attempts made, `Except.error ()` =
the `HttpError` was re-raised) together with the list of `time.sleep`
delays performed, in order. -/

def add_video_go (api : Nat → Bool) (attempt : Nat) :
    Nat → Except Unit Nat × List Nat
  | 0 => (Except.ok attempt, [])
  | 1 => if api attempt then (Except.ok (attempt + 1), []) else (Except.error (), [])
  | n + 2 =>
    if api attempt then (Except.ok (attempt + 1), [])
    else
      let r := add_video_go api (attempt + 1) (n + 1)
      (r.1, 2 ^ attempt :: r.2)

/-- `add_video_to_playlist(youtube, playlist_id, video_id, retry_count)`;
the source's default for `retry_count` is 3 and every call site uses it. -/
def add_video_to_playlist (env : Env) (playlist_id video_id : String)
    (retry_count : Nat) : Except Unit Nat × List Nat :=
  add_video_go (env.appendApi playlist_id video_id) 0 retry_count

/-! ## Classification (is_music, lines 175-180) -/

/-- `is_music(youtube, video_id)`: the video's `categoryId` equals the
fixed Music category code `"10"`. -/
def is_music (env : Env) (video_id : String) : Bool :=
  env.categoryId video_id == ("10")

/-! ## Sync orchestrator (message_callback, lines 183-257) -/

/-- An inbound Matrix text event (`nio.RoomMessageText`): sender, body and
server-assigned timestamp in milliseconds. -/
structure Event where
  sender : String
  body : String
  server_timestamp : Nat
deriving DecidableEq

/-- Outcome of processing one extracted link (or a list of them):
resulting database, store operations, remote calls, and whether an
exception escaped (`errored = true` aborts the rest of the event). -/
structure StepOut where
  db : DB
  ops : List DbOp
  calls : List RemoteCall
  errored : Bool
deriving DecidableEq

/-- Body of `for link in youtube_links` (lines 220-257) for one link:
classify; if music, insert the dedup row (swallowing the uniqueness
violation), look up the canonical row by link alone, check membership,
and only if absent append remotely and record membership on success. -/
def processLink (env : Env) (sender : String) (ts : Nat) (pid : String)
    (db : DB) (link : String) : StepOut :=
  let video_id := video_id_of link
  if is_music env video_id then
    let dup := db.messages.any
      (fun m => m.sender == sender && m.message == link && m.timestamp == ts)
    let db1 :=
      if dup then db
      else { db with
              messages := db.messages ++ [⟨db.nextMsgId, sender, link, ts⟩],
              nextMsgId := db.nextMsgId + 1 }
    let ops1 := [DbOp.recordMsg sender link ts (!dup)]
    match db1.messages.find? (fun m => m.message == link) with
    | none =>
      ⟨db1, ops1 ++ [DbOp.findMsg link], [RemoteCall.classify video_id], false⟩
    | some row =>
      let member := db1.tracks.any
        (fun t => t.message_id == row.id && t.playlist_id == pid)
      if member then
        ⟨db1, ops1 ++ [DbOp.findMsg link, DbOp.memberCheck pid row.id true],
         [RemoteCall.classify video_id], false⟩
      else
        match (add_video_to_playlist env pid video_id 3).1 with
        | Except.error _ =>
          ⟨db1, ops1 ++ [DbOp.findMsg link, DbOp.memberCheck pid row.id false],
           [RemoteCall.classify video_id, RemoteCall.append pid video_id], true⟩
        | Except.ok _ =>
          ⟨{ db1 with tracks := db1.tracks ++ [⟨pid, row.id⟩] },
           ops1 ++ [DbOp.findMsg link, DbOp.memberCheck pid row.id false,
                    DbOp.insertTrack pid row.id],
           [RemoteCall.classify video_id, RemoteCall.append pid video_id], false⟩
  else ⟨db, [], [RemoteCall.classify video_id], false⟩

/-- The `for link in youtube_links` loop: an escaping exception aborts the
remaining links of the event but keeps what was already committed. -/
def processLinks (env : Env) (sender : String) (ts : Nat) (pid : String) :
    DB → List String → StepOut
  | db, [] => ⟨db, [], [], false⟩
  | db, link :: rest =>
    let o1 := processLink env sender ts pid db link
    if o1.errored then o1
    else
      let o2 := processLinks env sender ts pid o1.db rest
      ⟨o2.db, o1.ops ++ o2.ops, o1.calls ++ o2.calls, o2.errored⟩

/-- Full outcome of `message_callback` for one event. -/
structure CallbackOut where
  db : DB
  replies : List Reply
  ops : List DbOp
  calls : List RemoteCall
  errored : Bool
deriving DecidableEq

/-- `message_callback(client, room, event)` (lines 183-257).  `botUser` is
the configured `MATRIX_USER`; `now` is the current wall-clock time in
milliseconds (`Int`, as nothing constrains it relative to the event
timestamp).  Effects in source order: resolve-or-create the weekly
playlist (line 193, before link extraction and command matching; an
uncaught creation failure aborts the event), send the freshness-guarded
command replies (lines 201-218), then run the link loop (lines 220-257).
Caveat: as with `get_monday_date`, the timestamp conversions at lines
196-199 spell the timezone `datetime.UTC`, which raises `AttributeError`
at runtime because the import binds the class; so in the source as
written, every call with a non-bot sender raises at line 191 before any
of the logic modelled here runs.  This embedding models the evidently
intended behaviour of the handler body. -/
def message_callback (env : Env) (botUser : String) (now : Int) (db : DB)
    (ev : Event) : CallbackOut :=
  if ev.sender == botUser then ⟨db, [], [], [], false⟩
  else
    let body := pyStrip ev.body
    let ts := ev.server_timestamp
    let monday := get_monday_date ts
    let res := get_or_make_playlist env db monday
    match res.handle with
    | none => ⟨res.db, [], [], res.calls, true⟩
    | some pid =>
      let links := findall body
      let fresh := decide (now - (ts : Int) < 30000)
      let introReplies :=
        if body == ("!parkerbot") && fresh then [Reply.intro] else []
      let powReplies :=
        if body == ("!pow") && fresh then
          [Reply.pow ev.sender (("https://www.youtube.com/playlist?list=") ++ pid)]
        else []
      let st := processLinks env ev.sender ts pid res.db links
      ⟨st.db, introReplies ++ powReplies, st.ops, res.calls ++ st.calls, st.errored⟩

/-! ## Backfill driver (backwards_sync, lines 287-306)

`client.room_messages(room_id, from_token, direction="b")` is modelled by
`hist : cursor → (events, end)`, with `end = none` or `end = some ""`
both falsy under Python `not response.end`.  Every chunk event is a text
message (only `RoomMessageText` instances are processed; others are
skipped, which the model represents by simply not including them).  An
exception escaping `message_callback` propagates out of the loop; in the
source as written that includes the unconditional line-191
`AttributeError` (the `datetime.UTC` slip) for any non-bot text event,
which aborts the driver mid-history — the `errored` flag here covers the
modelled error sources of the intended handler logic only.  The
fuel only makes the `while True` recursion structural; the result is
`some (finalDb, pageFetches, errored)`, or `none` if the fuel ran out
before the loop terminated. -/

/-- `for event in response.chunk: await message_callback(...)`. -/
def runChunk (env : Env) (botUser : String) (now : Int) :
    DB → List Event → DB × Bool
  | db, [] => (db, false)
  | db, ev :: rest =>
    let out := message_callback env botUser now db ev
    if out.errored then (out.db, true)
    else runChunk env botUser now out.db rest

/-- `backwards_sync(client, room, start_token)`: fetch a page, process its
events, stop when `not response.end or response.end == from_token`,
otherwise continue from `response.end`. -/
def backwards_sync (env : Env) (botUser : String) (now : Int)
    (hist : String → List Event × Option String) :
    Nat → DB → String → Option (DB × Nat × Bool)
  | 0, _, _ => none
  | fuel + 1, db, tok =>
    let page := hist tok
    let step := runChunk env botUser now db page.1
    if step.2 then some (step.1, 1, true)
    else
      match page.2 with
      | none => some (step.1, 1, false)
      | some e =>
        if e == ("") || e == tok then some (step.1, 1, false)
        else
          match backwards_sync env botUser now hist fuel step.1 e with
          | none => none
          | some (d, n, er) => some (d, n + 1, er)

/-! ## Helper lemmas -/

theorem find?_append_of_some {α : Type} {p : α → Bool} {l1 l2 : List α} {a : α}
    (h : l1.find? p = some a) : (l1 ++ l2).find? p = some a := by
  induction l1 with
  | nil => simp at h
  | cons x xs ih =>
    by_cases hx : p x = true
    · rw [List.find?_cons_of_pos _ hx] at h
      rw [List.cons_append, List.find?_cons_of_pos _ hx]
      exact h
    · rw [List.find?_cons_of_neg _ hx] at h
      rw [List.cons_append, List.find?_cons_of_neg _ hx]
      exact ih h

theorem find?_append_of_none {α : Type} {p : α → Bool} {l1 l2 : List α}
    (h : l1.find? p = none) : (l1 ++ l2).find? p = l2.find? p := by
  induction l1 with
  | nil => simp
  | cons x xs ih =>
    have hx : ¬(p x = true) := List.find?_eq_none.mp h x (by simp)
    have hxs : xs.find? p = none :=
      List.find?_eq_none.mpr (fun y hy => List.find?_eq_none.mp h y (by simp [hy]))
    rw [List.cons_append, List.find?_cons_of_neg _ hx, ih hxs]

theorem monday_eq_weekIndex (t : Nat) :
    get_monday_date t = 7 * (weekIndex t : Int) - 3 := by
  unfold get_monday_date weekIndex weekdayOf
  omega

/-! ## Claim theorems -/

/-- Claim C7: link extraction on the three specified inputs.  The long-form
link with a trailing `&list=` parameter yields the canonical link truncated
at the first `&`, whose extracted video id is `abc123`; the playlist link
yields nothing; the short-form link is extracted and its video id is
`abc123`. -/
theorem c7_link_extraction :
    findall ("https://www.youtube.com/watch?v=abc123&list=xyz")
        = [("https://www.youtube.com/watch?v=abc123")]
    ∧ video_id_of ("https://www.youtube.com/watch?v=abc123") = ("abc123")
    ∧ findall ("https://youtube.com/playlist?list=xyz") = []
    ∧ findall ("https://youtu.be/abc123") = [("https://youtu.be/abc123")]
    ∧ video_id_of ("https://youtu.be/abc123") = ("abc123") := by
  refine ⟨?_, ?_, ?_, ?_, ?_⟩ <;> decide

/-- Claim C5: weekly bucketing.  The bucket key `get_monday_date` is a
Monday (day-of-week 0 in the Monday = 0 convention) lying at most 6 days
before the event's day; all timestamps in the same Monday-to-Sunday span
(same `weekIndex`) share the bucket key; timestamps in adjacent weeks have
different bucket keys, so any playlist records for the two buckets are
distinct records.  This settles the claimed bucketing against the
function's documented intent: in the source as written, `get_monday_date`
itself raises `AttributeError` on every input (the `datetime.UTC` slip
noted in the section comment above), so no bucket key is ever produced at
runtime. -/
theorem c5_weekly_bucketing (db : DB) (t1 t2 : Nat) :
    ((get_monday_date t1 + 3) % 7 = 0 ∧
      get_monday_date t1 ≤ (daysSinceEpoch t1 : Int) ∧
      (daysSinceEpoch t1 : Int) < get_monday_date t1 + 7)
    ∧ (weekIndex t1 = weekIndex t2 → get_monday_date t1 = get_monday_date t2)
    ∧ (weekIndex t2 = weekIndex t1 + 1 →
        get_monday_date t1 ≠ get_monday_date t2 ∧
        ∀ r1 ∈ db.playlists, ∀ r2 ∈ db.playlists,
          r1.title = get_monday_date t1 → r2.title = get_monday_date t2 →
          r1 ≠ r2) := by
  refine ⟨⟨?_, ?_, ?_⟩, ?_, ?_⟩
  · unfold get_monday_date weekdayOf; omega
  · unfold get_monday_date weekdayOf; omega
  · unfold get_monday_date weekdayOf; omega
  · intro h; rw [monday_eq_weekIndex, monday_eq_weekIndex, h]
  · intro h
    have hne : get_monday_date t1 ≠ get_monday_date t2 := by
      rw [monday_eq_weekIndex, monday_eq_weekIndex, h]
      push_cast
      omega
    refine ⟨hne, ?_⟩
    intro r1 _ r2 _ e1 e2 heq
    exact hne (by rw [← e1, ← e2, heq])

/-- Witness for C5 at concrete timestamps: 1970-01-05 (a Monday) 00:00 UTC
and 00:00:01 UTC are in the same week; 1970-01-12 00:00 UTC is in the
adjacent week. -/
theorem c5_weekly_bucketing_witness :
    get_monday_date 345600000 = get_monday_date 345601000 ∧
    get_monday_date 345600000 ≠ get_monday_date 950400000 :=
  ⟨(c5_weekly_bucketing emptyDB 345600000 345601000).2.1 (by decide),
   ((c5_weekly_bucketing emptyDB 345600000 950400000).2.2 (by decide)).1⟩

/-- Claim C3: resolve-or-create.  The durable store is consulted by derived
title before any remote call (if a row exists, the stored handle is
returned with no remote call and no state change); if absent, the mapping
is persisted immediately on success before the handle is returned; a
remote-create failure propagates with no row persisted; per-bucket
uniqueness of playlist records is preserved; and after a successful
resolution, resolving the same bucket again issues no remote call, so the
remote create is reached at most once per bucket key. -/
theorem c3_resolve_or_create (env : Env) (db : DB) (monday : Int) :
    (∀ row, db.playlists.find? (fun p => p.title == monday) = some row →
        get_or_make_playlist env db monday = ⟨some row.playlist_id, db, []⟩)
    ∧ (db.playlists.find? (fun p => p.title == monday) = none →
        env.createApi monday = none →
        get_or_make_playlist env db monday =
          ⟨none, db, [RemoteCall.create monday]⟩)
    ∧ (∀ pid, db.playlists.find? (fun p => p.title == monday) = none →
        env.createApi monday = some pid →
        get_or_make_playlist env db monday =
          ⟨some pid,
           { db with playlists := db.playlists ++ [⟨monday, pid, monday⟩] },
           [RemoteCall.create monday]⟩)
    ∧ (∀ t : Int, db.playlists.countP (fun p => p.title == t) ≤ 1 →
        (get_or_make_playlist env db monday).db.playlists.countP
          (fun p => p.title == t) ≤ 1)
    ∧ (∀ pid, (get_or_make_playlist env db monday).handle = some pid →
        (get_or_make_playlist env (get_or_make_playlist env db monday).db
          monday).calls = []) := by
  refine ⟨?_, ?_, ?_, ?_, ?_⟩
  · intro row h; unfold get_or_make_playlist; rw [h]
  · intro h hc; unfold get_or_make_playlist; rw [h, hc]
  · intro pid h hc; unfold get_or_make_playlist; rw [h, hc]
  · intro t ht
    unfold get_or_make_playlist
    cases hf : db.playlists.find? (fun p => p.title == monday) with
    | some row => simpa using ht
    | none =>
      cases hc : env.createApi monday with
      | none => simpa using ht
      | some pid =>
        simp only [List.countP_append]
        by_cases hmt : monday = t
        · subst hmt
          have h0 : db.playlists.countP (fun p => p.title == monday) = 0 :=
            List.countP_eq_zero.mpr (fun a ha => List.find?_eq_none.mp hf a ha)
          simp [h0, List.countP_cons]
        · have h1 : List.countP (fun p => p.title == t)
              [(⟨monday, pid, monday⟩ : PlaylistRow)] = 0 := by
            simp [List.countP_cons, hmt]
          simp only [h1, Nat.add_zero]
          exact ht
  · intro pid h
    cases hf : db.playlists.find? (fun p => p.title == monday) with
    | some row =>
      have hout : get_or_make_playlist env db monday =
          ⟨some row.playlist_id, db, []⟩ := by
        unfold get_or_make_playlist; rw [hf]
      rw [hout]
      show (get_or_make_playlist env db monday).calls = []
      rw [hout]
    | none =>
      cases hc : env.createApi monday with
      | none =>
        have : (get_or_make_playlist env db monday).handle = none := by
          unfold get_or_make_playlist; rw [hf, hc]
        rw [this] at h; cases h
      | some pid2 =>
        have hout : get_or_make_playlist env db monday =
            ⟨some pid2,
             { db with playlists := db.playlists ++ [⟨monday, pid2, monday⟩] },
             [RemoteCall.create monday]⟩ := by
          unfold get_or_make_playlist; rw [hf, hc]
        rw [hout]
        have hfind : (db.playlists ++
            [(⟨monday, pid2, monday⟩ : PlaylistRow)]).find?
              (fun p => p.title == monday) = some ⟨monday, pid2, monday⟩ := by
          rw [find?_append_of_none hf]; simp
        unfold get_or_make_playlist
        rw [hfind]

/-- Witness for C3 at a concrete store and environment: the empty database
with a remote create returning handle `PL1`. -/
theorem c3_resolve_or_create_witness :
    get_or_make_playlist ⟨fun _ => ("10"), fun _ => some ("PL1"),
        fun _ _ _ => true⟩ emptyDB 4 =
      ⟨some ("PL1"),
       { emptyDB with playlists := emptyDB.playlists ++ [⟨4, ("PL1"), 4⟩] },
       [RemoteCall.create 4]⟩ :=
  (c3_resolve_or_create ⟨fun _ => ("10"), fun _ => some ("PL1"),
      fun _ _ _ => true⟩ emptyDB 4).2.2.1 ("PL1") (by decide) rfl

/-- Claim C4: classification gate.  A reference whose classification is not
the music category is skipped entirely: the database is unchanged, no
store operation happens (in particular no dedup insert and no membership
lookup), the only remote call is the classification itself, and no remote
append is attempted. -/
theorem c4_classification_gate (env : Env) (s : String) (ts : Nat)
    (pid : String) (db : DB) (l : String)
    (h : env.categoryId (video_id_of l) ≠ ("10")) :
    processLink env s ts pid db l =
      ⟨db, [], [RemoteCall.classify (video_id_of l)], false⟩ := by
  have hm : is_music env (video_id_of l) = false := by
    simp [is_music]
    exact h
  unfold processLink
  simp [hm]

/-- Witness for C4 at a concrete non-music environment (category `22`). -/
theorem c4_classification_gate_witness :
    processLink ⟨fun _ => ("22"), fun _ => some ("PL1"), fun _ _ _ => true⟩
        ("@u:x") 5 ("PL1") emptyDB ("https://youtu.be/abc123") =
      ⟨emptyDB, [], [RemoteCall.classify ("abc123")], false⟩ := by
  have := c4_classification_gate
    ⟨fun _ => ("22"), fun _ => some ("PL1"), fun _ _ _ => true⟩
    ("@u:x") 5 ("PL1") emptyDB ("https://youtu.be/abc123") (by decide)
  rw [this]
  decide

theorem processLink_mono (env : Env) (s : String) (ts : Nat) (pid : String)
    (db : DB) (l : String) :
    ∃ tm tt, (processLink env s ts pid db l).db.messages = db.messages ++ tm ∧
      (processLink env s ts pid db l).db.tracks = db.tracks ++ tt ∧
      (processLink env s ts pid db l).db.playlists = db.playlists := by
  unfold processLink
  by_cases hm : is_music env (video_id_of l) = true
  case neg =>
    simp only [hm]
    exact ⟨[], [], by simp, by simp, rfl⟩
  simp only [hm, if_true]
  by_cases hdup : db.messages.any
      (fun m => m.sender == s && m.message == l && m.timestamp == ts) = true
  all_goals simp only [hdup, if_true, Bool.not_true, Bool.not_false,
    if_false, Bool.false_eq_true]
  · split
    · exact ⟨[], [], by simp, by simp, by simp⟩
    · next row hrow =>
      split
      · exact ⟨[], [], by simp, by simp, by simp⟩
      · split
        · exact ⟨[], [], by simp, by simp, by simp⟩
        · exact ⟨[], [⟨pid, row.id⟩], by simp, by simp, by simp⟩
  · split
    · exact ⟨[⟨db.nextMsgId, s, l, ts⟩], [], by simp, by simp, by simp⟩
    · next row hrow =>
      split
      · exact ⟨[⟨db.nextMsgId, s, l, ts⟩], [], by simp, by simp, by simp⟩
      · split
        · exact ⟨[⟨db.nextMsgId, s, l, ts⟩], [], by simp, by simp, by simp⟩
        · exact ⟨[⟨db.nextMsgId, s, l, ts⟩], [⟨pid, row.id⟩],
            by simp, by simp, by simp⟩

theorem processLinks_mono (env : Env) (s : String) (ts : Nat) (pid : String)
    (links : List String) (db : DB) :
    ∃ tm tt, (processLinks env s ts pid db links).db.messages
        = db.messages ++ tm ∧
      (processLinks env s ts pid db links).db.tracks = db.tracks ++ tt ∧
      (processLinks env s ts pid db links).db.playlists = db.playlists := by
  induction links generalizing db with
  | nil => exact ⟨[], [], by simp [processLinks], by simp [processLinks],
      by simp [processLinks]⟩
  | cons l rest ih =>
    obtain ⟨tm1, tt1, h1, h2, h3⟩ := processLink_mono env s ts pid db l
    unfold processLinks
    by_cases he : (processLink env s ts pid db l).errored = true
    · simp only [he, if_true]
      exact ⟨tm1, tt1, h1, h2, h3⟩
    · simp only [he, if_false, Bool.false_eq_true]
      obtain ⟨tm2, tt2, g1, g2, g3⟩ :=
        ih (processLink env s ts pid db l).db
      exact ⟨tm1 ++ tm2, tt1 ++ tt2,
        by simp only [g1, h1, List.append_assoc],
        by simp only [g2, h2, List.append_assoc],
        by simp only [g3, h3]⟩

theorem message_callback_mono (env : Env) (botUser : String) (now : Int)
    (db : DB) (ev : Event) :
    ∃ tm tt, (message_callback env botUser now db ev).db.messages
        = db.messages ++ tm ∧
      (message_callback env botUser now db ev).db.tracks = db.tracks ++ tt := by
  unfold message_callback
  by_cases hb : (ev.sender == botUser) = true
  · simp only [hb, if_true]
    exact ⟨[], [], by simp, by simp⟩
  simp only [hb, if_false, Bool.false_eq_true]
  have hres : (get_or_make_playlist env db
      (get_monday_date ev.server_timestamp)).db.messages = db.messages ∧
      (get_or_make_playlist env db
        (get_monday_date ev.server_timestamp)).db.tracks = db.tracks := by
    unfold get_or_make_playlist
    cases hf : db.playlists.find?
        (fun p => p.title == get_monday_date ev.server_timestamp) with
    | some row => exact ⟨rfl, rfl⟩
    | none =>
      cases env.createApi (get_monday_date ev.server_timestamp) with
      | none => exact ⟨rfl, rfl⟩
      | some pid => exact ⟨rfl, rfl⟩
  cases hh : (get_or_make_playlist env db
      (get_monday_date ev.server_timestamp)).handle with
  | none =>
    simp only [hh]
    exact ⟨[], [], by simp [hres.1], by simp [hres.2]⟩
  | some pid =>
    simp only [hh]
    obtain ⟨tm, tt, g1, g2, _⟩ := processLinks_mono env ev.sender
      ev.server_timestamp pid (findall (pyStrip ev.body))
      (get_or_make_playlist env db (get_monday_date ev.server_timestamp)).db
    exact ⟨tm, tt, by simp only [g1, hres.1], by simp only [g2, hres.2]⟩

/-- Claim C6: retry policy for the remote append.  With the source's
`retry_count = 3`: at most 3 physical attempts are made; the backoff
delays slept are an initial run of `1s, 2s, ...` doubling each attempt;
if every attempt fails, the delays were exactly `[1, 2]` and the error is
re-raised; an escaping error leaves all previously committed ledger rows
and memberships in place (`message_callback` only ever appends to the
`messages` and `playlist_tracks` tables); and an error on one link aborts
the remaining links of that event only. -/
theorem c6_retry_policy (env : Env) (pid vid : String) :
    (∀ n, (add_video_to_playlist env pid vid 3).1 = Except.ok n → n ≤ 3)
    ∧ (∃ m, m ≤ 2 ∧ (add_video_to_playlist env pid vid 3).2
        = (List.range m).map (fun k => 2 ^ k))
    ∧ ((∀ i, i < 3 → env.appendApi pid vid i = false) →
        (add_video_to_playlist env pid vid 3).1 = Except.error () ∧
        (add_video_to_playlist env pid vid 3).2 = [1, 2])
    ∧ (∀ (botUser : String) (now : Int) (db : DB) (ev : Event), ∃ tm tt,
        (message_callback env botUser now db ev).db.messages
          = db.messages ++ tm ∧
        (message_callback env botUser now db ev).db.tracks
          = db.tracks ++ tt)
    ∧ (∀ (s : String) (ts : Nat) (db : DB) (l : String)
          (rest : List String),
        (processLink env s ts pid db l).errored = true →
        processLinks env s ts pid db (l :: rest)
          = processLink env s ts pid db l) := by
  refine ⟨?_, ?_, ?_, ?_, ?_⟩
  · intro n
    cases h0 : env.appendApi pid vid 0 <;> cases h1 : env.appendApi pid vid 1
      <;> cases h2 : env.appendApi pid vid 2
      <;> simp [add_video_to_playlist, add_video_go, h0, h1, h2]
      <;> omega
  · cases h0 : env.appendApi pid vid 0 <;> cases h1 : env.appendApi pid vid 1
      <;> cases h2 : env.appendApi pid vid 2
    · exact ⟨2, by omega, by simp [add_video_to_playlist, add_video_go,
        h0, h1, h2, List.range_succ]⟩
    · exact ⟨2, by omega, by simp [add_video_to_playlist, add_video_go,
        h0, h1, h2, List.range_succ]⟩
    · exact ⟨1, by omega, by simp [add_video_to_playlist, add_video_go,
        h0, h1, h2, List.range_succ]⟩
    · exact ⟨1, by omega, by simp [add_video_to_playlist, add_video_go,
        h0, h1, h2, List.range_succ]⟩
    · exact ⟨0, by omega, by simp [add_video_to_playlist, add_video_go,
        h0, h1, h2]⟩
    · exact ⟨0, by omega, by simp [add_video_to_playlist, add_video_go,
        h0, h1, h2]⟩
    · exact ⟨0, by omega, by simp [add_video_to_playlist, add_video_go,
        h0, h1, h2]⟩
    · exact ⟨0, by omega, by simp [add_video_to_playlist, add_video_go,
        h0, h1, h2]⟩
  · intro hall
    have h0 := hall 0 (by omega)
    have h1 := hall 1 (by omega)
    have h2 := hall 2 (by omega)
    constructor
    · simp [add_video_to_playlist, add_video_go, h0, h1, h2]
    · simp [add_video_to_playlist, add_video_go, h0, h1, h2]
  · intro botUser now db ev
    exact message_callback_mono env botUser now db ev
  · intro s ts db l rest h
    unfold processLinks
    simp only [h, if_true]

/-- Witness for C6 at a concrete always-failing append environment: the
error is re-raised after delays of 1s and 2s. -/
theorem c6_retry_policy_witness :
    (add_video_to_playlist ⟨fun _ => ("10"), fun _ => some ("PL1"),
        fun _ _ _ => false⟩ ("PL1") ("abc123") 3).1 = Except.error () ∧
    (add_video_to_playlist ⟨fun _ => ("10"), fun _ => some ("PL1"),
        fun _ _ _ => false⟩ ("PL1") ("abc123") 3).2 = [1, 2] :=
  (c6_retry_policy ⟨fun _ => ("10"), fun _ => some ("PL1"),
      fun _ _ _ => false⟩ ("PL1") ("abc123")).2.2.1
    (fun _ _ => rfl)

theorem get_or_make_found (env : Env) (db : DB) (monday : Int) (row : PlaylistRow)
    (hf : db.playlists.find? (fun p => p.title == monday) = some row) :
    get_or_make_playlist env db monday = ⟨some row.playlist_id, db, []⟩ := by
  unfold get_or_make_playlist; rw [hf]

theorem get_or_make_created (env : Env) (db : DB) (monday : Int) (pid : String)
    (hf : db.playlists.find? (fun p => p.title == monday) = none)
    (hc : env.createApi monday = some pid) :
    get_or_make_playlist env db monday =
      ⟨some pid,
       { db with playlists := db.playlists ++ [⟨monday, pid, monday⟩] },
       [RemoteCall.create monday]⟩ := by
  unfold get_or_make_playlist; rw [hf, hc]

theorem get_or_make_mt (env : Env) (db : DB) (monday : Int) :
    (get_or_make_playlist env db monday).db.messages = db.messages ∧
    (get_or_make_playlist env db monday).db.tracks = db.tracks := by
  unfold get_or_make_playlist
  cases db.playlists.find? (fun p => p.title == monday) with
  | some row => exact ⟨rfl, rfl⟩
  | none =>
    cases env.createApi monday with
    | none => exact ⟨rfl, rfl⟩
    | some pid => exact ⟨rfl, rfl⟩

theorem message_callback_eq (env : Env) (botUser : String) (now : Int)
    (db : DB) (ev : Event) (pid : String)
    (hbot : ev.sender ≠ botUser)
    (hres : (get_or_make_playlist env db
        (get_monday_date ev.server_timestamp)).handle = some pid) :
    message_callback env botUser now db ev =
      ⟨(processLinks env ev.sender ev.server_timestamp pid
          (get_or_make_playlist env db
            (get_monday_date ev.server_timestamp)).db
          (findall (pyStrip ev.body))).db,
       (if pyStrip ev.body == ("!parkerbot")
            && decide (now - (ev.server_timestamp : Int) < 30000)
        then [Reply.intro] else []) ++
       (if pyStrip ev.body == ("!pow")
            && decide (now - (ev.server_timestamp : Int) < 30000)
        then [Reply.pow ev.sender
            (("https://www.youtube.com/playlist?list=") ++ pid)] else []),
       (processLinks env ev.sender ev.server_timestamp pid
          (get_or_make_playlist env db
            (get_monday_date ev.server_timestamp)).db
          (findall (pyStrip ev.body))).ops,
       (get_or_make_playlist env db (get_monday_date ev.server_timestamp)).calls
         ++ (processLinks env ev.sender ev.server_timestamp pid
              (get_or_make_playlist env db
                (get_monday_date ev.server_timestamp)).db
              (findall (pyStrip ev.body))).calls,
       (processLinks env ev.sender ev.server_timestamp pid
          (get_or_make_playlist env db
            (get_monday_date ev.server_timestamp)).db
          (findall (pyStrip ev.body))).errored⟩ := by
  have hb : (ev.sender == botUser) = false := beq_eq_false_iff_ne.mpr hbot
  unfold message_callback
  simp only [hb, Bool.false_eq_true, if_false]
  rw [hres]

theorem message_callback_createFail (env : Env) (botUser : String)
    (now : Int) (db : DB) (ev : Event)
    (hbot : ev.sender ≠ botUser)
    (hres : (get_or_make_playlist env db
        (get_monday_date ev.server_timestamp)).handle = none) :
    message_callback env botUser now db ev =
      ⟨(get_or_make_playlist env db (get_monday_date ev.server_timestamp)).db,
       [], [],
       (get_or_make_playlist env db (get_monday_date ev.server_timestamp)).calls,
       true⟩ := by
  have hb : (ev.sender == botUser) = false := beq_eq_false_iff_ne.mpr hbot
  unfold message_callback
  simp only [hb, Bool.false_eq_true, if_false]
  rw [hres]

/-- Claim C8: command freshness.  A `!pow` command whose server timestamp
is at least the 30-second freshness window old (such as 5 minutes)
produces no reply; within the window (such as 5 seconds old) exactly one
reply is sent, containing the link to the current bucket's playlist.
This holds of the handler logic as modelled; in the source as written,
the handler raises `AttributeError` at line 191 (the `datetime.UTC`
slip) before the freshness comparison, so at runtime no reply is ever
sent, fresh or stale. -/
theorem c8_command_freshness (env : Env) (botUser : String) (now : Int)
    (db : DB) (ev : Event)
    (hbot : ev.sender ≠ botUser) (hbody : pyStrip ev.body = ("!pow")) :
    (30000 ≤ now - (ev.server_timestamp : Int) →
      (message_callback env botUser now db ev).replies = [])
    ∧ (now - (ev.server_timestamp : Int) < 30000 →
      ∀ pid, (get_or_make_playlist env db
          (get_monday_date ev.server_timestamp)).handle = some pid →
        (message_callback env botUser now db ev).replies
          = [Reply.pow ev.sender
              (("https://www.youtube.com/playlist?list=") ++ pid)]) := by
  constructor
  · intro hstale
    have hfr : ¬(now - (ev.server_timestamp : Int) < 30000) := not_lt.mpr hstale
    cases hh : (get_or_make_playlist env db
        (get_monday_date ev.server_timestamp)).handle with
    | none => rw [message_callback_createFail env botUser now db ev hbot hh]
    | some pid =>
      rw [message_callback_eq env botUser now db ev pid hbot hh]
      simp [hbody, hfr]
  · intro hfresh pid hpid
    rw [message_callback_eq env botUser now db ev pid hbot hpid]
    simp [hbody, hfresh]

/-- Witness for C8: a `!pow` event 5 minutes old produces no reply; the
same event 5 seconds old produces exactly the playlist-link reply. -/
theorem c8_command_freshness_witness :
    (message_callback ⟨fun _ => ("10"), fun _ => some ("PL1"),
        fun _ _ _ => true⟩ ("@bot:x") 345900000 emptyDB
        ⟨("@u:x"), ("!pow"), 345600000⟩).replies = [] ∧
    (message_callback ⟨fun _ => ("10"), fun _ => some ("PL1"),
        fun _ _ _ => true⟩ ("@bot:x") 345605000 emptyDB
        ⟨("@u:x"), ("!pow"), 345600000⟩).replies
      = [Reply.pow ("@u:x")
          (("https://www.youtube.com/playlist?list=") ++ ("PL1"))] :=
  ⟨(c8_command_freshness ⟨fun _ => ("10"), fun _ => some ("PL1"),
      fun _ _ _ => true⟩ ("@bot:x") 345900000 emptyDB
      ⟨("@u:x"), ("!pow"), 345600000⟩ (by decide) (by decide)).1 (by decide),
   (c8_command_freshness ⟨fun _ => ("10"), fun _ => some ("PL1"),
      fun _ _ _ => true⟩ ("@bot:x") 345605000 emptyDB
      ⟨("@u:x"), ("!pow"), 345600000⟩ (by decide) (by decide)).2 (by decide)
      ("PL1") (by decide)⟩

/-- Claim C10: for a non-bot event, the weekly playlist is resolved or
created before link extraction and command matching; hence an event with
no extractable links and no recognized command still triggers the remote
create (when its bucket has no playlist yet) and persists the new playlist
record, while the `messages` and `playlist_tracks` tables and the set of
replies are untouched.  This holds of the handler logic as modelled; in
the source as written, the handler raises `AttributeError` at line 191
(the `datetime.UTC` slip) before `get_or_make_playlist` is called, so at
runtime the remote create is never reached either. -/
theorem c10_resolve_before_extraction (env : Env) (botUser : String)
    (now : Int) (db : DB) (ev : Event)
    (hbot : ev.sender ≠ botUser)
    (hnolinks : findall (pyStrip ev.body) = [])
    (hb1 : pyStrip ev.body ≠ ("!parkerbot"))
    (hb2 : pyStrip ev.body ≠ ("!pow")) :
    (message_callback env botUser now db ev).db.messages = db.messages
    ∧ (message_callback env botUser now db ev).db.tracks = db.tracks
    ∧ (message_callback env botUser now db ev).replies = []
    ∧ (∀ pid, db.playlists.find?
          (fun p => p.title == get_monday_date ev.server_timestamp) = none →
        env.createApi (get_monday_date ev.server_timestamp) = some pid →
        (message_callback env botUser now db ev).db.playlists
            = db.playlists ++ [⟨get_monday_date ev.server_timestamp, pid,
                get_monday_date ev.server_timestamp⟩]
          ∧ RemoteCall.create (get_monday_date ev.server_timestamp)
              ∈ (message_callback env botUser now db ev).calls) := by
  have hmt := get_or_make_mt env db (get_monday_date ev.server_timestamp)
  have hb1f : (pyStrip ev.body == ("!parkerbot")) = false :=
    beq_eq_false_iff_ne.mpr hb1
  have hb2f : (pyStrip ev.body == ("!pow")) = false := beq_eq_false_iff_ne.mpr hb2
  cases hh : (get_or_make_playlist env db
      (get_monday_date ev.server_timestamp)).handle with
  | none =>
    rw [message_callback_createFail env botUser now db ev hbot hh]
    refine ⟨hmt.1, hmt.2, rfl, ?_⟩
    intro pid hf hc
    have := get_or_make_created env db (get_monday_date ev.server_timestamp)
      pid hf hc
    rw [this] at hh
    cases hh
  | some pid0 =>
    rw [message_callback_eq env botUser now db ev pid0 hbot hh]
    rw [hnolinks]
    refine ⟨by simp [processLinks, hmt.1], by simp [processLinks, hmt.2],
      by simp [hb1f, hb2f], ?_⟩
    intro pid hf hc
    have hcr := get_or_make_created env db (get_monday_date ev.server_timestamp)
      pid hf hc
    refine ⟨by simp [processLinks, hcr], by simp [processLinks, hcr]⟩

/-- Witness for C10: a plain greeting observed on an empty database
creates and records the weekly playlist and nothing else. -/
theorem c10_resolve_before_extraction_witness :
    (message_callback ⟨fun _ => ("10"), fun _ => some ("PL1"),
        fun _ _ _ => true⟩ ("@bot:x") 345600000 emptyDB
        ⟨("@u:x"), ("hello there"), 345600000⟩).db.playlists
      = emptyDB.playlists ++ [⟨4, ("PL1"), 4⟩] :=
  ((c10_resolve_before_extraction ⟨fun _ => ("10"), fun _ => some ("PL1"),
      fun _ _ _ => true⟩ ("@bot:x") 345600000 emptyDB
      ⟨("@u:x"), ("hello there"), 345600000⟩ (by decide) (by decide)
      (by decide) (by decide)).2.2.2 ("PL1") (by decide) rfl).1

theorem processLink_member (env : Env) (s : String) (ts : Nat) (pid : String)
    (db : DB) (l : String) (row : MsgRow)
    (hfind : db.messages.find? (fun m => m.message == l) = some row)
    (hmem : (⟨pid, row.id⟩ : TrackRow) ∈ db.tracks) :
    (processLink env s ts pid db l).db.tracks = db.tracks ∧
    (∀ p v, RemoteCall.append p v ∉ (processLink env s ts pid db l).calls) ∧
    (processLink env s ts pid db l).errored = false := by
  have hmem' : (db.tracks.any
      (fun t => t.message_id == row.id && t.playlist_id == pid)) = true :=
    List.any_eq_true.mpr ⟨⟨pid, row.id⟩, hmem, by simp⟩
  unfold processLink
  by_cases hm : is_music env (video_id_of l) = true
  case neg =>
    simp only [hm, Bool.false_eq_true, if_false]
    simp
  simp only [hm, if_true]
  by_cases hdup : db.messages.any
      (fun m => m.sender == s && m.message == l && m.timestamp == ts) = true
  all_goals simp only [hdup, if_true, Bool.not_true, Bool.not_false,
    if_false, Bool.false_eq_true]
  · simp only [hfind, hmem', if_true]
    simp
  · simp only [find?_append_of_some hfind, hmem', if_true]
    simp

/-- Claim C2: membership gate.  A membership record is written only when
the remote append has returned successfully (if the bounded-retry append
raises, `playlist_tracks` is unchanged; whenever `playlist_tracks` grew,
the append returned `ok` and exactly the new pair was recorded); and once
a membership record exists for the (playlist, canonical row) pair, the
remote append operation is not invoked at all for that reference.
`processLink` is the one code path processing a reference, shared by the
live subscription and the backfill driver (both go through
`message_callback`), so this covers live, same-message and backfill
re-observations alike. -/
theorem c2_membership_gate (env : Env) (s : String) (ts : Nat)
    (pid : String) :
    (∀ (db : DB) (l : String) (row : MsgRow),
        db.messages.find? (fun m => m.message == l) = some row →
        (⟨pid, row.id⟩ : TrackRow) ∈ db.tracks →
        (processLink env s ts pid db l).db.tracks = db.tracks ∧
        ∀ p v, RemoteCall.append p v ∉ (processLink env s ts pid db l).calls)
    ∧ (∀ (db : DB) (l : String),
        (add_video_to_playlist env pid (video_id_of l) 3).1
            = Except.error () →
        (processLink env s ts pid db l).db.tracks = db.tracks)
    ∧ (∀ (db : DB) (l : String),
        (processLink env s ts pid db l).db.tracks ≠ db.tracks →
        ∃ n rowId,
          (add_video_to_playlist env pid (video_id_of l) 3).1 = Except.ok n ∧
          (processLink env s ts pid db l).db.tracks
            = db.tracks ++ [⟨pid, rowId⟩]) := by
  refine ⟨?_, ?_, ?_⟩
  · intro db l row hfind hmem
    have h := processLink_member env s ts pid db l row hfind hmem
    exact ⟨h.1, h.2.1⟩
  · intro db l herr
    unfold processLink
    by_cases hm : is_music env (video_id_of l) = true
    case neg => simp only [hm, Bool.false_eq_true, if_false]
    simp only [hm, if_true]
    by_cases hdup : db.messages.any
        (fun m => m.sender == s && m.message == l && m.timestamp == ts) = true
    all_goals simp only [hdup, if_true, Bool.not_true, Bool.not_false,
      if_false, Bool.false_eq_true]
    · split
      · rfl
      · next row hrow =>
        split
        · rfl
        · simp only [herr]
    · split
      · rfl
      · next row hrow =>
        split
        · rfl
        · simp only [herr]
  · intro db l hne
    revert hne
    unfold processLink
    by_cases hm : is_music env (video_id_of l) = true
    case neg =>
      simp only [hm, Bool.false_eq_true, if_false]
      intro hne
      exact absurd rfl hne
    simp only [hm, if_true]
    by_cases hdup : db.messages.any
        (fun m => m.sender == s && m.message == l && m.timestamp == ts) = true
    all_goals simp only [hdup, if_true, Bool.not_true, Bool.not_false,
      if_false, Bool.false_eq_true]
    · split
      · intro hne; exact absurd rfl hne
      · next row hrow =>
        split
        · intro hne; exact absurd rfl hne
        · cases hav : (add_video_to_playlist env pid (video_id_of l) 3).1 with
          | error e => intro hne; exact absurd rfl hne
          | ok n => intro _; exact ⟨n, row.id, by cases e : Unit.unit; rfl, by simp⟩
    · split
      · intro hne; exact absurd rfl hne
      · next row hrow =>
        split
        · intro hne; exact absurd rfl hne
        · cases hav : (add_video_to_playlist env pid (video_id_of l) 3).1 with
          | error e => intro hne; exact absurd rfl hne
          | ok n => intro _; exact ⟨n, row.id, by cases e : Unit.unit; rfl, by simp⟩

/-- Witness for C2 at a concrete store already holding the canonical row
and its membership record: the tracks table is unchanged. -/
theorem c2_membership_gate_witness :
    (processLink ⟨fun _ => ("10"), fun _ => some ("PL1"), fun _ _ _ => true⟩
        ("@u:x") 5 ("PL1")
        ⟨[⟨1, ("@u:x"), ("https://youtu.be/abc123"), 5⟩], 2, [],
         [⟨("PL1"), 1⟩]⟩ ("https://youtu.be/abc123")).db.tracks
      = [⟨("PL1"), 1⟩] :=
  ((c2_membership_gate ⟨fun _ => ("10"), fun _ => some ("PL1"),
      fun _ _ _ => true⟩ ("@u:x") 5 ("PL1")).1
    ⟨[⟨1, ("@u:x"), ("https://youtu.be/abc123"), 5⟩], 2, [], [⟨("PL1"), 1⟩]⟩
    ("https://youtu.be/abc123") ⟨1, ("@u:x"), ("https://youtu.be/abc123"), 5⟩
    (by decide) (by decide)).1

/-- Claim C1: idempotence of event processing.  Starting from a fresh
store, processing the same single-reference music event twice (same
sender, reference and timestamp, with the remote append succeeding)
leaves exactly one `messages` row for the (sender, reference, timestamp)
triple, issues at most one remote append call over both runs, and the
second run's uniqueness-constraint violation is swallowed (recorded as an
`already_present` dedup outcome, with no exception escaping).  This holds
of the handler logic as modelled; in the source as written, the handler
raises `AttributeError` at line 191 (the `datetime.UTC` slip) before the
dedup insert is reached, so at runtime no ledger row is ever written. -/
theorem c1_idempotent_event (env : Env) (botUser : String) (now : Int)
    (ev : Event) (l : String) (pid : String)
    (hbot : ev.sender ≠ botUser)
    (hlinks : findall (pyStrip ev.body) = [l])
    (hmusic : env.categoryId (video_id_of l) = ("10"))
    (hcreate : env.createApi (get_monday_date ev.server_timestamp)
        = some pid)
    (happend : ∀ p v, env.appendApi p v 0 = true) :
    ((message_callback env botUser now
        (message_callback env botUser now emptyDB ev).db ev).db.messages.filter
          (fun m => m.sender == ev.sender && m.message == l &&
            m.timestamp == ev.server_timestamp)).length = 1
    ∧ ((message_callback env botUser now emptyDB ev).calls ++
        (message_callback env botUser now
          (message_callback env botUser now emptyDB ev).db ev).calls).countP
        (fun c => match c with
          | RemoteCall.append _ _ => true
          | _ => false) ≤ 1
    ∧ (message_callback env botUser now
        (message_callback env botUser now emptyDB ev).db ev).errored = false
    ∧ DbOp.recordMsg ev.sender l ev.server_timestamp false ∈
        (message_callback env botUser now
          (message_callback env botUser now emptyDB ev).db ev).ops := by
  have hbf : (ev.sender == botUser) = false := beq_eq_false_iff_ne.mpr hbot
  refine ⟨?_, ?_, ?_, ?_⟩ <;>
    simp [message_callback, get_or_make_playlist, processLinks, processLink,
      is_music, add_video_to_playlist, add_video_go, emptyDB, hlinks, hmusic,
      hcreate, happend, hbf]

/-- Witness for C1: a fresh store fed the same short-form link event
twice holds exactly one row for the triple. -/
theorem c1_idempotent_event_witness :
    ((message_callback ⟨fun _ => ("10"), fun _ => some ("PL1"),
        fun _ _ _ => true⟩ ("@bot:x") 345600000
        (message_callback ⟨fun _ => ("10"), fun _ => some ("PL1"),
          fun _ _ _ => true⟩ ("@bot:x") 345600000 emptyDB
          ⟨("@u:x"), ("https://youtu.be/abc123"), 345600000⟩).db
        ⟨("@u:x"), ("https://youtu.be/abc123"),
         345600000⟩).db.messages.filter
        (fun m => m.sender == ("@u:x") &&
          m.message == ("https://youtu.be/abc123") &&
          m.timestamp == 345600000)).length = 1 :=
  (c1_idempotent_event ⟨fun _ => ("10"), fun _ => some ("PL1"),
      fun _ _ _ => true⟩ ("@bot:x") 345600000
      ⟨("@u:x"), ("https://youtu.be/abc123"), 345600000⟩
      ("https://youtu.be/abc123") ("PL1") (by decide) (by decide) rfl rfl
      (fun _ _ => rfl)).1

theorem processLink_no_error (env : Env) (s : String) (ts : Nat)
    (pid : String) (db : DB) (l : String)
    (happend : ∀ p v, env.appendApi p v 0 = true) :
    (processLink env s ts pid db l).errored = false := by
  have hav : (add_video_to_playlist env pid (video_id_of l) 3).1
      = Except.ok 1 := by
    simp [add_video_to_playlist, add_video_go, happend]
  unfold processLink
  by_cases hm : is_music env (video_id_of l) = true
  case neg => simp [hm]
  simp only [hm, if_true]
  by_cases hdup : db.messages.any
      (fun m => m.sender == s && m.message == l && m.timestamp == ts) = true
  all_goals simp only [hdup, if_true, Bool.not_true, Bool.not_false,
    if_false, Bool.false_eq_true]
  · split
    · rfl
    · next row hrow =>
      split
      · rfl
      · simp [hav]
  · split
    · rfl
    · next row hrow =>
      split
      · rfl
      · simp [hav]

theorem processLinks_no_error (env : Env) (s : String) (ts : Nat)
    (pid : String) (happend : ∀ p v, env.appendApi p v 0 = true)
    (links : List String) : ∀ db : DB,
    (processLinks env s ts pid db links).errored = false := by
  induction links with
  | nil => intro db; rfl
  | cons l rest ih =>
    intro db
    unfold processLinks
    have h1 := processLink_no_error env s ts pid db l happend
    simp only [h1, Bool.false_eq_true, if_false]
    exact ih _

theorem get_or_make_isSome (env : Env) (db : DB) (monday : Int)
    (hc : (env.createApi monday).isSome = true) :
    (get_or_make_playlist env db monday).handle.isSome = true := by
  unfold get_or_make_playlist
  cases hf : db.playlists.find? (fun p => p.title == monday) with
  | some row => rfl
  | none =>
    cases hcc : env.createApi monday with
    | none => rw [hcc] at hc; simp at hc
    | some pid => rfl

theorem message_callback_no_error (env : Env) (botUser : String) (now : Int)
    (db : DB) (ev : Event)
    (hcreateAll : ∀ m, (env.createApi m).isSome = true)
    (happend : ∀ p v, env.appendApi p v 0 = true) :
    (message_callback env botUser now db ev).errored = false := by
  by_cases hb : (ev.sender == botUser) = true
  · unfold message_callback; simp [hb]
  · have hbot : ev.sender ≠ botUser := by
      intro h; exact hb (by simp [h])
    cases hh : (get_or_make_playlist env db
        (get_monday_date ev.server_timestamp)).handle with
    | none =>
      have := get_or_make_isSome env db (get_monday_date ev.server_timestamp)
        (hcreateAll _)
      rw [hh] at this
      simp at this
    | some pid =>
      rw [message_callback_eq env botUser now db ev pid hbot hh]
      exact processLinks_no_error env ev.sender ev.server_timestamp pid
        happend (findall (pyStrip ev.body)) _

theorem runChunk_no_error (env : Env) (botUser : String) (now : Int)
    (hcreateAll : ∀ m, (env.createApi m).isSome = true)
    (happend : ∀ p v, env.appendApi p v 0 = true)
    (evs : List Event) : ∀ db : DB,
    (runChunk env botUser now db evs).2 = false := by
  induction evs with
  | nil => intro db; rfl
  | cons ev rest ih =>
    intro db
    unfold runChunk
    have h := message_callback_no_error env botUser now db ev hcreateAll happend
    simp only [h, Bool.false_eq_true, if_false]
    exact ih _

/-- Claim C9: backfill termination.  With a remote environment that raises
no errors, and a history API whose continuation cursor advances through
`toks 0, toks 1, ...` and stops advancing at page `N` (the `N`-th page
returns no cursor, an empty cursor, or the cursor it was fetched with),
the backfill driver performs exactly `N` page fetches and terminates.
This holds of the driver with the intended per-event handler logic; in
the source as written, the first non-bot text event in any fetched page
raises `AttributeError` at line 191 (the `datetime.UTC` slip), the
exception propagates out of `backwards_sync` (line 299), and the driver
aborts after fewer than `N` fetches instead of stopping via the cursor
guard. -/
theorem c9_backfill_termination (env : Env) (botUser : String) (now : Int)
    (hist : String → List Event × Option String)
    (hcreateAll : ∀ m, (env.createApi m).isSome = true)
    (happend : ∀ p v, env.appendApi p v 0 = true)
    (toks : Nat → String) (N : Nat) (hN : 1 ≤ N)
    (hstep : ∀ i, i + 1 < N → (hist (toks i)).2 = some (toks (i + 1)) ∧
        toks (i + 1) ≠ ("") ∧ toks (i + 1) ≠ toks i)
    (hstop : (hist (toks (N - 1))).2 = none ∨
        (hist (toks (N - 1))).2 = some ("") ∨
        (hist (toks (N - 1))).2 = some (toks (N - 1)))
    (fuel : Nat) (hfuel : N ≤ fuel) (db : DB) :
    ∃ db2, backwards_sync env botUser now hist fuel db (toks 0)
      = some (db2, N, false) := by
  obtain ⟨n, rfl⟩ : ∃ n, N = n + 1 := ⟨N - 1, by omega⟩
  clear hN
  induction n generalizing toks fuel db with
  | zero =>
    obtain ⟨f, rfl⟩ : ∃ f, fuel = f + 1 := ⟨fuel - 1, by omega⟩
    have hrc := runChunk_no_error env botUser now hcreateAll happend
      (hist (toks 0)).1 db
    simp only [Nat.add_sub_cancel] at hstop
    refine ⟨(runChunk env botUser now db (hist (toks 0)).1).1, ?_⟩
    simp only [backwards_sync]
    rw [hrc]
    simp only [Bool.false_eq_true, if_false]
    rcases hstop with h | h | h <;> rw [h] <;> simp
  | succ m ih =>
    obtain ⟨f, rfl⟩ : ∃ f, fuel = f + 1 := ⟨fuel - 1, by omega⟩
    have hrc := runChunk_no_error env botUser now hcreateAll happend
      (hist (toks 0)).1 db
    obtain ⟨h0, h0ne, h0adv⟩ := hstep 0 (by omega)
    have hstep2 : ∀ i, i + 1 < m + 1 →
        (hist (toks (i + 1))).2 = some (toks (i + 1 + 1)) ∧
        toks (i + 1 + 1) ≠ ("") ∧ toks (i + 1 + 1) ≠ toks (i + 1) :=
      fun i hi => hstep (i + 1) (by omega)
    have hstop2 : (hist (toks (m + 1 - 1 + 1))).2 = none ∨
        (hist (toks (m + 1 - 1 + 1))).2 = some ("") ∨
        (hist (toks (m + 1 - 1 + 1))).2 = some (toks (m + 1 - 1 + 1)) := by
      simp only [Nat.add_sub_cancel]
      simpa only [Nat.add_sub_cancel] using hstop
    obtain ⟨db2, hdb2⟩ := ih (fun i => toks (i + 1)) f
      (runChunk env botUser now db (hist (toks 0)).1).1 hstep2 hstop2
      (by omega)
    refine ⟨db2, ?_⟩
    simp only [backwards_sync]
    rw [hrc]
    simp only [Bool.false_eq_true, if_false]
    rw [h0]
    have he1 : (toks 1 == ("")) = false := beq_eq_false_iff_ne.mpr h0ne
    have he2 : (toks 1 == toks 0) = false := beq_eq_false_iff_ne.mpr h0adv
    simp only [he1, he2, Bool.or_self, Bool.false_eq_true, if_false]
    rw [hdb2]

/-- Witness for C9: a history API whose pages each carry one non-bot text
event and always return cursor `b` (so the cursor stops advancing on the
second page) stops the driver after exactly 2 fetches, with both pages
processed. -/
theorem c9_backfill_termination_witness :
    ∃ db2, backwards_sync ⟨fun _ => ("10"), fun _ => some ("PL1"),
        fun _ _ _ => true⟩ ("@bot:x") 345600000
        (fun _ => ([⟨("@u:x"), ("hello there"), 345600000⟩], some ("b")))
        5 emptyDB ((fun i => if i == 0 then ("a") else ("b")) 0)
      = some (db2, 2, false) :=
  c9_backfill_termination ⟨fun _ => ("10"), fun _ => some ("PL1"),
      fun _ _ _ => true⟩ ("@bot:x") 345600000
    (fun _ => ([⟨("@u:x"), ("hello there"), 345600000⟩], some ("b")))
    (fun _ => rfl) (fun _ _ => rfl)
    (fun i => if i == 0 then ("a") else ("b")) 2 (by omega)
    (by
      intro i hi
      have h0 : i = 0 := by omega
      subst h0
      exact ⟨rfl, by decide, by decide⟩)
    (Or.inr (Or.inr rfl)) 5 (by omega) emptyDB

end Parkerbot
